import Mathlib

/-!
Verification of the carbon-cache repository: a shallow embedding in Lean 4 of
the cache stores (`storage-engine`), the cache registry and persistence
(`carbon/planes/control`, `carbon/persistence`), the data plane
(`carbon/planes/data`), the TCP binary protocol (`server-tcp`), the HTTP
validation layer (`server-http/validation.rs`) and the session-backed
authentication fast path (`server-http/middleware/authentication.rs`,
`carbon/auth`), together with theorems settling the specification claims.

Machine integers are modelled as `Nat` with explicit `% 2^w` where Rust
truncates (`as u32`); byte strings (`Vec<u8>` / `Bytes`) are `List Nat`;
fallible Rust functions returning `Result<T, Error>` become
`Except Err T`.
-/

namespace Carbon

/-- Bytes: model of Rust `Vec<u8>` / `bytes::Bytes` (each element a byte value). -/
abbrev Bytes := List Nat

/-- Embeds `shared::Error` (shared/src/lib.rs). -/
inductive Err where
  | notFound
  | cacheNotFound (name : String)
  | internal (msg : String)
deriving DecidableEq, Repr

/-- Embeds the `thiserror` `Display` impl of `shared::Error`:
`"not found"`, `"cache not found: {0}"`, `"internal: {0}"`. -/
def Err.display : Err → String
  | .notFound => "not found"
  | .cacheNotFound n => "cache not found: " ++ n
  | .internal m => "internal: " ++ m

/-- Model of `shared::Result<T>`. -/
abbrev Res (α : Type) := Except Err α

/-- Embeds `carbon::domain::response::PutResponse`. -/
structure PutResponse where
  created : Bool
  message : String
deriving DecidableEq, Repr

/-- Embeds `carbon::domain::response::GetResponse<V>`. -/
structure GetResponse (V : Type) where
  found : Bool
  message : V
deriving DecidableEq, Repr

/-- Embeds `carbon::domain::response::DeleteResponse`. -/
structure DeleteResponse where
  deleted : Bool
deriving DecidableEq, Repr

section MapModel

variable {K V : Type} [DecidableEq K]

/-- First-match association lookup: model of lookup in a Rust hash map
(`moka::Cache::get`, `HashMap::get`), where each key has at most one binding. -/
def mapLookup : List (K × V) → K → Option V
  | [], _ => none
  | (k2, v) :: rest, k => if k2 = k then some v else mapLookup rest k

/-- Remove every binding of `k`: model of removing the (unique) binding of a
key from a Rust map (`remove`). -/
def mapErase (m : List (K × V)) (k : K) : List (K × V) :=
  m.filter (fun p => p.1 ≠ k)

/-- Insert-or-replace: model of Rust map `insert`. -/
def mapInsert (m : List (K × V)) (k : K) (v : V) : List (K × V) :=
  (k, v) :: mapErase m k

/-- In-place update of the binding of `k` (if present), preserving order:
model of mutating a map entry through a write guard. -/
def mapUpdate (m : List (K × V)) (k : K) (v : V) : List (K × V) :=
  m.map (fun p => if p.1 = k then (p.1, v) else p)

theorem mapLookup_insert_self (m : List (K × V)) (k : K) (v : V) :
    mapLookup (mapInsert m k v) k = some v := by
  simp [mapInsert, mapLookup]

theorem mapLookup_erase_self (m : List (K × V)) (k : K) :
    mapLookup (mapErase m k) k = none := by
  induction m with
  | nil => rfl
  | cons p rest ih =>
    by_cases h : p.1 = k
    · simpa [mapErase, h] using ih
    · simpa [mapErase, List.filter_cons, h, mapLookup] using ih

theorem mapLookup_isSome_iff_mem_keys (m : List (K × V)) (k : K) :
    (mapLookup m k).isSome = true ↔ k ∈ m.map Prod.fst := by
  induction m with
  | nil => simp [mapLookup]
  | cons p rest ih =>
    by_cases h : p.1 = k
    · simp [mapLookup, h]
    · simp [mapLookup, h, ih, Ne.symm h]

theorem keys_nodup_mapInsert (m : List (K × V)) (k : K) (v : V)
    (h : (m.map Prod.fst).Nodup) :
    ((mapInsert m k v).map Prod.fst).Nodup := by
  refine List.Nodup.cons ?_ ?_
  · intro hmem
    rcases List.mem_map.mp hmem with ⟨p, hp, hpk⟩
    have := List.of_mem_filter hp
    simp only [decide_eq_true_eq] at this
    exact this hpk
  · exact List.Nodup.sublist (List.Sublist.map Prod.fst (List.filter_sublist m)) h

end MapModel

/-! ## Cache stores (storage-engine)

`MokaCache` (storage-engine/src/moka_cache.rs) and `FoyerCache`
(storage-engine/src/lib.rs) implement `CacheStore<K, V>` identically at this
level of abstraction: `put` inserts into the underlying concurrent map and
ignores the per-entry TTL argument (both backends only support the global TTL
configured at construction), `get` returns `GetResponse::new(true, value)` or
`Err(Error::NotFound)`, `delete` removes and reports whether the key existed.
The underlying map is modelled by its current entry list. -/

section StoreModel

variable {K V : Type} [DecidableEq K]

/-- A store's current entries (the concurrent map's contents). -/
abbrev Store (K V : Type) := List (K × V)

/-- Embeds `MokaCache::put` / `FoyerCache::put`: the per-entry `ttl` argument
is accepted but ignored (both backends use only the global TTL); the entry is
inserted and `Ok(PutResponse::new(true, "Successfully inserted"))` returned. -/
def storePut (st : Store K V) (k : K) (v : V) (_ttl : Option Nat) :
    Store K V × PutResponse :=
  (mapInsert st k v, ⟨true, "Successfully inserted"⟩)

/-- Embeds `MokaCache::get` / `FoyerCache::get`. -/
def storeGet (st : Store K V) (k : K) : Res (GetResponse V) :=
  match mapLookup st k with
  | some v => .ok ⟨true, v⟩
  | none => .error .notFound

/-- Embeds `MokaCache::delete` / `FoyerCache::delete`: removes the key and
returns `Ok(DeleteResponse::new(existed))`. -/
def storeDelete (st : Store K V) (k : K) : Store K V × Res DeleteResponse :=
  (mapErase st k, .ok ⟨(mapLookup st k).isSome⟩)

end StoreModel

/-- C1: For every cache store, key `k` and value `v`: `put(k, v, ttl)` followed
by `get(k)` returns a response with `found = true` and value `v`; `delete(k)`
followed by `get(k)` fails with `NotFound`; and a second `delete(k)`
immediately after a successful delete returns `deleted = false`. -/
theorem store_put_get_delete_law {K V : Type} [DecidableEq K]
    (st st2 : Store K V) (k : K) (v : V) (ttl : Option Nat) :
    storeGet (storePut st k v ttl).1 k = .ok ⟨true, v⟩
    ∧ storeGet (storeDelete st2 k).1 k = .error .notFound
    ∧ (storeDelete (storeDelete st2 k).1 k).2 = .ok ⟨false⟩ := by
  refine ⟨?_, ?_, ?_⟩
  · simp [storePut, storeGet, mapLookup_insert_self]
  · simp [storeDelete, storeGet, mapLookup_erase_self]
  · simp [storeDelete, mapLookup_erase_self]

/-! ## Cache configuration (carbon/src/domain.rs) -/

/-- Embeds `carbon::domain::EvictionAlgorithm`. -/
inductive EvictionAlgorithm where
  | unspecified
  | lru
  | tinyLfu
  | sieve
deriving DecidableEq, Repr

/-- Embeds `carbon::domain::CacheEvictionStrategy`. -/
inductive CacheEvictionStrategy where
  | timeBound
  | sizeBounded
  | overflowToDisk
deriving DecidableEq, Repr

/-- Embeds `carbon::domain::CacheConfig` (`HashMap<String, String>` tags become
an association list). -/
structure CacheConfig where
  name : String
  backend : CacheEvictionStrategy
  policy : EvictionAlgorithm
  mem_bytes : Option Nat
  disk_path : Option String
  shards : Option Nat
  default_ttl_ms : Option Nat
  max_value_bytes : Option Nat
  description : Option String
  tags : Option (List (String × String))
deriving DecidableEq, Repr

/-- Embeds `carbon::domain::CacheInfo` and `CacheInfo::from_config`
(`keys_estimate` and `size_estimate` are hard-coded to 0 in the source). -/
structure CacheInfo where
  config : CacheConfig
  keys_estimate : Nat
  size_estimate : Nat
deriving DecidableEq, Repr

/-- Embeds `CacheInfo::from_config`. -/
def CacheInfo.from_config (config : CacheConfig) : CacheInfo :=
  ⟨config, 0, 0⟩

/-! ## Persistence (carbon/src/persistence/sled_store.rs)

The sled database is a durable ordered map from the cache-name bytes to the
JSON encoding of its `CacheConfig`.  Keys are modelled as the names
themselves (`name.as_bytes()` is injective).  `serde_json` is an external
library; its value space is abstracted to `Blob := CacheConfig ⊕ Nat`:
`Sum.inl c` stands for the JSON blob produced by serializing `c` (serde
round-trips a derived struct), `Sum.inr i` stands for any corrupted blob,
on which `serde_json::from_slice` fails.  Sled I/O failures are modelled by
an injected fault flag `failNext` consumed by the next mutating operation;
a failed operation leaves the tree as it was and returns the
`Error::Internal(..)` that `save_config` / `delete_config` build. -/

/-- A stored sled value: the JSON of a config, or a corrupted record. -/
abbrev Blob := CacheConfig ⊕ Nat

/-- Model of `serde_json::to_vec(config)` (always succeeds on this struct). -/
def blobOfConfig (c : CacheConfig) : Blob := Sum.inl c

/-- Model of `serde_json::from_slice::<CacheConfig>`: inverts `blobOfConfig`,
fails on corrupted blobs. -/
def configFromBlob : Blob → Option CacheConfig
  | .inl c => some c
  | .inr _ => none

/-- State of the sled database plus the injected fault schedule. -/
structure PersistState where
  db : List (String × Blob)
  failNext : Bool
deriving DecidableEq, Repr

/-- Embeds `SledPersistence::save_config`: serialize, `db.insert(name, json)`,
flush.  A sled failure (injected fault) returns
`Error::Internal("Failed to save config: ..")` and leaves the tree as it was. -/
def saveConfig (p : PersistState) (config : CacheConfig) :
    PersistState × Res Unit :=
  if p.failNext then
    ({ p with failNext := false }, .error (.internal "Failed to save config: sled fault"))
  else
    ({ p with db := mapInsert p.db config.name (blobOfConfig config) }, .ok ())

/-- Embeds `SledPersistence::delete_config`: `db.remove(name)`, flush, return
whether a value was removed.  An injected sled failure returns
`Error::Internal("Failed to delete config: ..")` with the tree unchanged. -/
def deleteConfig (p : PersistState) (name : String) :
    PersistState × Res Bool :=
  if p.failNext then
    ({ p with failNext := false }, .error (.internal "Failed to delete config: sled fault"))
  else
    ({ p with db := mapErase p.db name }, .ok (mapLookup p.db name).isSome)

/-- Embeds `SledPersistence::load_all`: iterate the tree; each value is
deserialized with `serde_json::from_slice(..)?` — the `?` operator aborts the
whole load with `Error::Internal("Failed to deserialize config: ..")` at the
first record that fails to deserialize. -/
def loadAll (entries : List (String × Blob)) : Res (List CacheConfig) :=
  match entries with
  | [] => .ok []
  | (_, value) :: rest =>
      match configFromBlob value with
      | none => .error (.internal "Failed to deserialize config: invalid record")
      | some config =>
          match loadAll rest with
          | .error e => .error e
          | .ok configs => .ok (config :: configs)

/-! ## Cache registry (carbon/src/planes/control/admin_operations.rs) -/

/-- Embeds `CreateCacheResponse` (carbon/src/domain.rs, admin responses). -/
structure CreateCacheResponse where
  created : Bool
  message : String
deriving DecidableEq, Repr

/-- Embeds `DropCacheResponse`. -/
structure DropCacheResponse where
  dropped : Bool
deriving DecidableEq, Repr

/-- Embeds `ListCachesResponse`. -/
structure ListCachesResponse where
  caches : List CacheInfo
deriving DecidableEq, Repr

/-- Embeds `DescribeCacheResponse`. -/
structure DescribeCacheResponse where
  info : CacheInfo
deriving DecidableEq, Repr

/-- Embeds `CacheMetadata<K, V>`: config plus the storage implementation,
with stores specialized to `Vec<u8> -> Vec<u8>` as in the data plane. -/
structure CacheMetadata where
  config : CacheConfig
  store : Store Bytes Bytes
deriving DecidableEq, Repr

/-- Embeds `CacheManager<K, V>`: the `HashMap<String, CacheMetadata>` registry
plus the optional persistence layer. -/
structure ManagerState where
  registry : List (String × CacheMetadata)
  persistence : Option PersistState
deriving DecidableEq, Repr

/-- Embeds `CacheManager::create_cache`: a duplicate name returns
`created = false` without mutating anything; otherwise the config is persisted
first (a persistence failure propagates via `?` before the map insert) and
only then is the entry inserted into the registry map. -/
def createCache (st : ManagerState) (config : CacheConfig)
    (store : Store Bytes Bytes) : ManagerState × Res CreateCacheResponse :=
  if (mapLookup st.registry config.name).isSome then
    (st, .ok ⟨false, "Cache '" ++ config.name ++ "' already exists"⟩)
  else
    match st.persistence with
    | some p =>
        let pr := saveConfig p config
        match pr.2 with
        | .error e => ({ st with persistence := some pr.1 }, .error e)
        | .ok _ =>
            (⟨mapInsert st.registry config.name ⟨config, store⟩, some pr.1⟩,
             .ok ⟨true, "Cache '" ++ config.name ++ "' created successfully"⟩)
    | none =>
        ({ st with registry := mapInsert st.registry config.name ⟨config, store⟩ },
         .ok ⟨true, "Cache '" ++ config.name ++ "' created successfully"⟩)

/-- Embeds `CacheManager::drop_cache`: `caches.remove(name)` happens first;
only if something was removed is the persisted config deleted, and a failing
`delete_config(name)?` propagates the error after the map entry is already
gone (the removal is not rolled back). -/
def dropCache (st : ManagerState) (name : String) :
    ManagerState × Res DropCacheResponse :=
  let dropped := (mapLookup st.registry name).isSome
  let reg2 := mapErase st.registry name
  if dropped then
    match st.persistence with
    | some p =>
        let pr := deleteConfig p name
        match pr.2 with
        | .error e => (⟨reg2, some pr.1⟩, .error e)
        | .ok _ => (⟨reg2, some pr.1⟩, .ok ⟨true⟩)
    | none => (⟨reg2, none⟩, .ok ⟨true⟩)
  else
    (⟨reg2, st.persistence⟩, .ok ⟨false⟩)

/-- Embeds `CacheManager::list_caches`: a snapshot of
`CacheInfo::from_config` over the registry values. -/
def listCaches (st : ManagerState) : Res ListCachesResponse :=
  .ok ⟨st.registry.map (fun p => CacheInfo.from_config p.2.config)⟩

/-- Embeds `CacheManager::describe_cache`. -/
def describeCache (st : ManagerState) (name : String) :
    Res DescribeCacheResponse :=
  match mapLookup st.registry name with
  | some entry => .ok ⟨CacheInfo.from_config entry.config⟩
  | none => .error (.cacheNotFound name)

/-- Embeds `CacheManager::get_cache_store`. -/
def getCacheStore (st : ManagerState) (name : String) :
    Option (Store Bytes Bytes) :=
  (mapLookup st.registry name).map CacheMetadata.store

/-- Embeds `CacheManager::new_with_persistence`: open sled, `load_all()?`
(so a failing load aborts the constructor), then eagerly recreate every
loaded cache through the storage factory and insert it into the registry. -/
def newWithPersistence (p : PersistState)
    (factory : CacheConfig → Store Bytes Bytes) : Res ManagerState :=
  match loadAll p.db with
  | .error e => .error e
  | .ok configs =>
      .ok ⟨configs.foldl
             (fun reg config => mapInsert reg config.name ⟨config, factory config⟩) [],
           some p⟩

/-- Embeds `CacheManager::new` (in-memory only). -/
def managerNew : ManagerState := ⟨[], none⟩

/-- Run a sequence of `create_cache` calls. -/
def runCreates (st : ManagerState) :
    List (CacheConfig × Store Bytes Bytes) → ManagerState
  | [] => st
  | (config, store) :: rest => runCreates (createCache st config store).1 rest

/-- Well-formedness of the registry list: keys are unique (the `HashMap`
invariant) and every entry is keyed by its config's name (how `create_cache`
and rehydration insert entries). -/
def RegWF (reg : List (String × CacheMetadata)) : Prop :=
  (reg.map Prod.fst).Nodup ∧ ∀ q ∈ reg, q.2.config.name = q.1

theorem regWF_insert {reg : List (String × CacheMetadata)}
    (h : RegWF reg) (config : CacheConfig) (store : Store Bytes Bytes) :
    RegWF (mapInsert reg config.name ⟨config, store⟩) := by
  constructor
  · exact keys_nodup_mapInsert reg config.name ⟨config, store⟩ h.1
  · intro q hq
    rcases List.mem_cons.mp hq with rfl | hq
    · rfl
    · exact h.2 q (List.mem_of_mem_filter hq)

theorem regWF_createCache (st : ManagerState) (config : CacheConfig)
    (store : Store Bytes Bytes) (h : RegWF st.registry) :
    RegWF (createCache st config store).1.registry := by
  by_cases hc : (mapLookup st.registry config.name).isSome
  · simpa [createCache, hc] using h
  · rcases hp : st.persistence with _ | p
    · simpa [createCache, hc, hp] using regWF_insert h config store
    · by_cases hf : p.failNext
      · simpa [createCache, hc, hp, saveConfig, hf] using h
      · simpa [createCache, hc, hp, saveConfig, hf] using regWF_insert h config store

theorem regWF_runCreates (st : ManagerState)
    (ops : List (CacheConfig × Store Bytes Bytes)) (h : RegWF st.registry) :
    RegWF (runCreates st ops).registry := by
  induction ops generalizing st with
  | nil => exact h
  | cons op rest ih => exact ih _ (regWF_createCache st op.1 op.2 h)

/-- C3: For every sequence of `create_cache` calls, `list_caches` contains
each cache name at most once, and a `create_cache` whose name is already
registered returns `created = false` and leaves both the in-memory registry
map and the persisted configuration store unchanged. -/
theorem registry_uniqueness :
    (∀ (p : Option PersistState) (ops : List (CacheConfig × Store Bytes Bytes)),
       ∃ resp, listCaches (runCreates ⟨[], p⟩ ops) = .ok resp
         ∧ (resp.caches.map (fun i => i.config.name)).Nodup)
    ∧ (∀ (st : ManagerState) (config : CacheConfig) (store : Store Bytes Bytes),
       (mapLookup st.registry config.name).isSome = true →
       createCache st config store
         = (st, .ok ⟨false, "Cache '" ++ config.name ++ "' already exists"⟩)) := by
  constructor
  · intro p ops
    refine ⟨_, rfl, ?_⟩
    have hwf : RegWF (runCreates ⟨[], p⟩ ops).registry :=
      regWF_runCreates _ ops ⟨List.nodup_nil, by intro q hq; cases hq⟩
    have hmap :
        ((runCreates ⟨[], p⟩ ops).registry.map
            (fun q => CacheInfo.from_config q.2.config)).map (fun i => i.config.name)
          = (runCreates ⟨[], p⟩ ops).registry.map Prod.fst := by
      rw [List.map_map]
      exact List.map_congr_left (fun q hq => hwf.2 q hq)
    simpa [listCaches, hmap] using hwf.1
  · intro st config store h
    simp [createCache, h]

/-- Sample configuration used by concrete witnesses. -/
def cfgA : CacheConfig :=
  ⟨"a", .timeBound, .tinyLfu, none, none, some 16, some 1800000, none, none, none⟩

/-- Sample configuration with a different name, used by concrete witnesses. -/
def cfgB : CacheConfig :=
  ⟨"b", .sizeBounded, .lru, some 1048576, none, some 16, none, none, none, none⟩

/-- Witness for C3: instantiates `registry_uniqueness` at a concrete
duplicate-name create (and the claim's hypothesis is discharged by `decide`). -/
theorem registry_uniqueness_witness :
    createCache ⟨[("a", ⟨cfgA, []⟩)], none⟩ cfgA []
      = (⟨[("a", ⟨cfgA, []⟩)], none⟩, .ok ⟨false, "Cache 'a' already exists"⟩) := by
  have h := registry_uniqueness.2 ⟨[("a", ⟨cfgA, []⟩)], none⟩ cfgA []
    (by simp [mapLookup, cfgA])
  simpa [cfgA] using h

/-- C4: If `create_cache` is called with a name not yet registered and the
persistence write of the configuration fails, `create_cache` returns that
error and the in-memory registry map is not modified. -/
theorem create_persist_fail_not_installed
    (st : ManagerState) (config : CacheConfig) (store : Store Bytes Bytes)
    (p : PersistState)
    (hp : st.persistence = some p) (hf : p.failNext = true)
    (habs : (mapLookup st.registry config.name).isSome = false) :
    (createCache st config store).2
        = .error (.internal "Failed to save config: sled fault")
    ∧ (createCache st config store).1.registry = st.registry := by
  constructor <;> simp [createCache, habs, hp, saveConfig, hf]

/-- Witness for C4 at a concrete state: a fresh name, a failing sled write. -/
theorem create_persist_fail_not_installed_witness :
    (createCache ⟨[("a", ⟨cfgA, []⟩)], some ⟨[("a", blobOfConfig cfgA)], true⟩⟩ cfgB []).2
        = .error (.internal "Failed to save config: sled fault")
    ∧ (createCache ⟨[("a", ⟨cfgA, []⟩)], some ⟨[("a", blobOfConfig cfgA)], true⟩⟩ cfgB []).1.registry
        = [("a", ⟨cfgA, []⟩)] :=
  create_persist_fail_not_installed
    ⟨[("a", ⟨cfgA, []⟩)], some ⟨[("a", blobOfConfig cfgA)], true⟩⟩ cfgB []
    ⟨[("a", blobOfConfig cfgA)], true⟩ rfl rfl (by simp [mapLookup, cfgA, cfgB])

/-- C5 counterexample: a persisted record that fails to deserialize is NOT
skipped — `load_all` aborts with `Internal(..)` at the corrupted record, the
remaining well-formed config is not loaded, and `new_with_persistence`
(rehydration at boot) propagates the failure. -/
theorem rehydrate_corrupt_record_counterexample :
    loadAll [("good", blobOfConfig cfgA), ("bad", (Sum.inr 0 : Blob)),
             ("good2", blobOfConfig cfgB)]
        = .error (.internal "Failed to deserialize config: invalid record")
    ∧ newWithPersistence
        ⟨[("good", blobOfConfig cfgA), ("bad", (Sum.inr 0 : Blob)),
          ("good2", blobOfConfig cfgB)], false⟩ (fun _ => [])
        = .error (.internal "Failed to deserialize config: invalid record") := by
  constructor <;> rfl

/-- C5 amended: a persisted configuration record that fails to deserialize is
fatal to rehydration: `load_all` returns `Internal("Failed to deserialize
config: ..")` as soon as it meets such a record, and
`new_with_persistence` propagates any `load_all` error, so boot fails and no
configs are installed. -/
theorem rehydrate_corrupt_record_fatal :
    (∀ (entries : List (String × Blob)),
       (∃ e ∈ entries, configFromBlob e.2 = none) →
       loadAll entries = .error (.internal "Failed to deserialize config: invalid record"))
    ∧ (∀ (p : PersistState) (factory : CacheConfig → Store Bytes Bytes) (e : Err),
       loadAll p.db = .error e → newWithPersistence p factory = .error e) := by
  constructor
  · intro entries h
    induction entries with
    | nil => rcases h with ⟨e, he, _⟩; cases he
    | cons q rest ih =>
        rcases hq : configFromBlob q.2 with _ | c
        · simp [loadAll, hq]
        · rcases h with ⟨e, he, hbad⟩
          rcases List.mem_cons.mp he with rfl | he
          · simp [hq] at hbad
          · have := ih ⟨e, he, hbad⟩
            simp [loadAll, hq, this]
  · intro p factory e h
    simp [newWithPersistence, h]

/-- Witness for the amended C5 at a concrete database with one corrupted
record. -/
theorem rehydrate_corrupt_record_fatal_witness :
    loadAll [("bad", (Sum.inr 7 : Blob))]
        = .error (.internal "Failed to deserialize config: invalid record")
    ∧ newWithPersistence ⟨[("bad", (Sum.inr 7 : Blob))], false⟩ (fun _ => [])
        = .error (.internal "Failed to deserialize config: invalid record") :=
  ⟨rehydrate_corrupt_record_fatal.1 [("bad", (Sum.inr 7 : Blob))]
      ⟨("bad", Sum.inr 7), by simp, rfl⟩,
   rehydrate_corrupt_record_fatal.2 ⟨[("bad", (Sum.inr 7 : Blob))], false⟩
      (fun _ => []) _ rfl⟩

/-- C10: `drop_cache` removes the cache from the in-memory registry map
before deleting the persisted configuration; if that persistence delete fails,
`drop_cache` returns the error but the removal is not rolled back: the cache
is gone from the registry while its configuration remains persisted. -/
theorem drop_cache_not_atomic
    (st : ManagerState) (name : String) (p : PersistState) (meta : CacheMetadata)
    (hp : st.persistence = some p) (hf : p.failNext = true)
    (hmem : mapLookup st.registry name = some meta) :
    (dropCache st name).2 = .error (.internal "Failed to delete config: sled fault")
    ∧ (dropCache st name).1.registry = mapErase st.registry name
    ∧ mapLookup (dropCache st name).1.registry name = none
    ∧ (dropCache st name).1.persistence = some ⟨p.db, false⟩ := by
  have hsome : (mapLookup st.registry name).isSome = true := by simp [hmem]
  refine ⟨?_, ?_, ?_, ?_⟩ <;>
    simp [dropCache, hsome, hp, deleteConfig, hf, mapLookup_erase_self]

/-- Witness for C10 at a concrete state: cache "a" present, failing sled
delete; the registry loses "a" while the persisted blob stays. -/
theorem drop_cache_not_atomic_witness :
    (dropCache ⟨[("a", ⟨cfgA, []⟩)], some ⟨[("a", blobOfConfig cfgA)], true⟩⟩ "a").2
        = .error (.internal "Failed to delete config: sled fault")
    ∧ (dropCache ⟨[("a", ⟨cfgA, []⟩)], some ⟨[("a", blobOfConfig cfgA)], true⟩⟩ "a").1.registry
        = mapErase [("a", ⟨cfgA, []⟩)] "a"
    ∧ mapLookup (dropCache ⟨[("a", ⟨cfgA, []⟩)], some ⟨[("a", blobOfConfig cfgA)], true⟩⟩ "a").1.registry "a"
        = none
    ∧ (dropCache ⟨[("a", ⟨cfgA, []⟩)], some ⟨[("a", blobOfConfig cfgA)], true⟩⟩ "a").1.persistence
        = some ⟨[("a", blobOfConfig cfgA)], false⟩ :=
  drop_cache_not_atomic ⟨[("a", ⟨cfgA, []⟩)], some ⟨[("a", blobOfConfig cfgA)], true⟩⟩
    "a" ⟨[("a", blobOfConfig cfgA)], true⟩ ⟨cfgA, []⟩ rfl rfl (by simp [mapLookup])

/-! ## Data plane (carbon/src/planes/data/cache_operations.rs)

`CacheOperationsService` wraps the `CacheManager` plus an optional broadcast
sender of `CacheItemEvent`s.  The broadcast channel is modelled by the list
of events passed to `broadcaster.send` (whether or not any subscriber is
currently listening, `send` is invoked exactly once per emitted event);
the wall-clock `now_timestamp()` is threaded in as a parameter `now`. -/

/-- Embeds `carbon::events::ItemAddedEvent`. -/
structure ItemAddedEvent where
  cache_name : String
  key : Bytes
  value_size : Nat
  ttl_ms : Option Nat
  timestamp : Nat
deriving DecidableEq, Repr

/-- Embeds `carbon::events::ItemUpdatedEvent`. -/
structure ItemUpdatedEvent where
  cache_name : String
  key : Bytes
  value_size : Nat
  ttl_ms : Option Nat
  timestamp : Nat
deriving DecidableEq, Repr

/-- Embeds `carbon::events::ItemDeletedEvent`. -/
structure ItemDeletedEvent where
  cache_name : String
  key : Bytes
  timestamp : Nat
deriving DecidableEq, Repr

/-- Embeds `carbon::events::CacheItemEvent`. -/
inductive CacheItemEvent where
  | added (e : ItemAddedEvent)
  | updated (e : ItemUpdatedEvent)
  | deleted (e : ItemDeletedEvent)
deriving DecidableEq, Repr

/-- Embeds `CacheOperationsService<Vec<u8>, Vec<u8>>` together with the
event-broadcast channel: `hasBroadcaster` is whether `event_broadcaster` is
`Some`, `events` is the list of events handed to `broadcaster.send` so far. -/
structure OpsState where
  manager : ManagerState
  hasBroadcaster : Bool
  events : List CacheItemEvent
deriving DecidableEq, Repr

/-- Embeds `CacheOperationsService::put` (the specialized `Vec<u8>/Vec<u8>`
impl): resolve the cache (else `CacheNotFound`), pre-read the key to classify
add vs update, perform the store put, then — if a broadcaster is configured —
send exactly one `Added` or `Updated` event. -/
def opsPut (st : OpsState) (now : Nat) (cache_name : String) (key value : Bytes)
    (ttl : Option Nat) : OpsState × Res PutResponse :=
  match mapLookup st.manager.registry cache_name with
  | none => (st, .error (.cacheNotFound cache_name))
  | some meta =>
      let existed := (storeGet meta.store key).isOk
      let pr := storePut meta.store key value ttl
      let event : CacheItemEvent :=
        if existed then
          .updated ⟨cache_name, key, value.length, ttl, now⟩
        else
          .added ⟨cache_name, key, value.length, ttl, now⟩
      ({ st with
          manager := { st.manager with
            registry := mapUpdate st.manager.registry cache_name { meta with store := pr.1 } },
          events := if st.hasBroadcaster then st.events ++ [event] else st.events },
       .ok pr.2)

/-- Embeds `CacheOperationsService::get`: resolve and delegate, no event. -/
def opsGet (st : OpsState) (cache_name : String) (key : Bytes) :
    Res (GetResponse Bytes) :=
  match mapLookup st.manager.registry cache_name with
  | none => .error (.cacheNotFound cache_name)
  | some meta => storeGet meta.store key

/-- Embeds `CacheOperationsService::delete`: resolve, delegate, and send one
`Deleted` event only when the response has `deleted = true` (and a
broadcaster is configured). -/
def opsDelete (st : OpsState) (now : Nat) (cache_name : String) (key : Bytes) :
    OpsState × Res DeleteResponse :=
  match mapLookup st.manager.registry cache_name with
  | none => (st, .error (.cacheNotFound cache_name))
  | some meta =>
      let dr := storeDelete meta.store key
      let deleted := (mapLookup meta.store key).isSome
      ({ st with
          manager := { st.manager with
            registry := mapUpdate st.manager.registry cache_name { meta with store := dr.1 } },
          events :=
            if deleted ∧ st.hasBroadcaster then
              st.events ++ [.deleted ⟨cache_name, key, now⟩]
            else st.events },
       dr.2)

/-- C6: With a broadcaster configured, every successful put of an absent key
sends exactly one `Added` event; every successful put of a present key sends
exactly one `Updated` event; every delete whose response has `deleted = true`
sends exactly one `Deleted` event; and an unsuccessful operation (unknown
cache, or a delete that removed nothing) sends no event. -/
theorem event_emission (st : OpsState) (now : Nat) (cache_name : String)
    (key value : Bytes) (ttl : Option Nat) (hb : st.hasBroadcaster = true) :
    (∀ meta, mapLookup st.manager.registry cache_name = some meta →
       (mapLookup meta.store key = none →
          (opsPut st now cache_name key value ttl).1.events
            = st.events ++ [.added ⟨cache_name, key, value.length, ttl, now⟩])
       ∧ (∀ v0, mapLookup meta.store key = some v0 →
          (opsPut st now cache_name key value ttl).1.events
            = st.events ++ [.updated ⟨cache_name, key, value.length, ttl, now⟩])
       ∧ ((opsDelete st now cache_name key).2 = .ok ⟨true⟩ →
          (opsDelete st now cache_name key).1.events
            = st.events ++ [.deleted ⟨cache_name, key, now⟩])
       ∧ ((opsDelete st now cache_name key).2 = .ok ⟨false⟩ →
          (opsDelete st now cache_name key).1.events = st.events))
    ∧ (mapLookup st.manager.registry cache_name = none →
       (opsPut st now cache_name key value ttl).2 = .error (.cacheNotFound cache_name)
       ∧ (opsPut st now cache_name key value ttl).1.events = st.events
       ∧ (opsDelete st now cache_name key).2 = .error (.cacheNotFound cache_name)
       ∧ (opsDelete st now cache_name key).1.events = st.events) := by
  constructor
  · intro meta hmeta
    refine ⟨?_, ?_, ?_, ?_⟩
    · intro habs
      simp [opsPut, hmeta, storeGet, habs, hb, Except.isOk, Except.toBool]
    · intro v0 hpres
      simp [opsPut, hmeta, storeGet, hpres, hb, Except.isOk, Except.toBool]
    · intro hdel
      have : (mapLookup meta.store key).isSome = true := by
        by_contra hcon
        simp [opsDelete, hmeta, storeDelete, Bool.not_eq_true] at hdel hcon
        simp [hcon] at hdel
      simp [opsDelete, hmeta, storeDelete, this, hb]
    · intro hdel
      have : (mapLookup meta.store key).isSome = false := by
        by_contra hcon
        simp [Bool.not_eq_false] at hcon
        simp [opsDelete, hmeta, storeDelete, hcon] at hdel
      simp [opsDelete, hmeta, storeDelete, this, hb]
  · intro habs
    refine ⟨?_, ?_, ?_, ?_⟩ <;> simp [opsPut, opsDelete, habs]

/-- Witness for C6: concrete add, update, delete and unknown-cache cases. -/
theorem event_emission_witness :
    (opsPut ⟨⟨[("a", ⟨cfgA, []⟩)], none⟩, true, []⟩ 5 "a" [1] [2, 3] none).1.events
      = [.added ⟨"a", [1], 2, none, 5⟩]
    ∧ (opsPut ⟨⟨[("a", ⟨cfgA, [([1], [9])]⟩)], none⟩, true, []⟩ 5 "a" [1] [2, 3] none).1.events
      = [.updated ⟨"a", [1], 2, none, 5⟩]
    ∧ (opsDelete ⟨⟨[("a", ⟨cfgA, [([1], [9])]⟩)], none⟩, true, []⟩ 6 "a" [1]).1.events
      = [.deleted ⟨"a", [1], 6⟩]
    ∧ (opsDelete ⟨⟨[("a", ⟨cfgA, []⟩)], none⟩, true, []⟩ 6 "a" [1]).1.events = []
    ∧ (opsPut ⟨⟨[], none⟩, true, []⟩ 5 "z" [1] [2] none).1.events = [] := by
  refine ⟨?_, ?_, ?_, ?_, ?_⟩
  · exact ((event_emission ⟨⟨[("a", ⟨cfgA, []⟩)], none⟩, true, []⟩ 5 "a" [1] [2, 3]
      none rfl).1 ⟨cfgA, []⟩ (by simp [mapLookup])).1 (by simp [mapLookup])
  · exact (((event_emission ⟨⟨[("a", ⟨cfgA, [([1], [9])]⟩)], none⟩, true, []⟩ 5 "a" [1]
      [2, 3] none rfl).1 ⟨cfgA, [([1], [9])]⟩ (by simp [mapLookup])).2.1 [9]
      (by simp [mapLookup]))
  · exact (((event_emission ⟨⟨[("a", ⟨cfgA, [([1], [9])]⟩)], none⟩, true, []⟩ 6 "a" [1]
      [] none rfl).1 ⟨cfgA, [([1], [9])]⟩ (by simp [mapLookup])).2.2.1
      (by simp [opsDelete, mapLookup, storeDelete]))
  · exact (((event_emission ⟨⟨[("a", ⟨cfgA, []⟩)], none⟩, true, []⟩ 6 "a" [1]
      [] none rfl).1 ⟨cfgA, []⟩ (by simp [mapLookup])).2.2.2
      (by simp [opsDelete, mapLookup, storeDelete]))
  · exact ((event_emission ⟨⟨[], none⟩, true, []⟩ 5 "z" [1] [2] none rfl).2
      (by simp [mapLookup])).2.1

/-! ## UTF-8 (model of Rust `String::as_bytes` / `String::from_utf8`)

Rust `String`s are UTF-8 byte strings; Lean `String`s are lists of unicode
scalar values.  The protocol stores names/messages on the wire as UTF-8, so
the standard UTF-8 codec is spelled out here: `utf8Encode` models
`as_bytes()`, `utf8Decode` models `String::from_utf8(..).ok()` (it rejects
continuation-byte errors, overlong forms, surrogates and out-of-range
scalars). -/

/-- UTF-8 encoding of one unicode scalar value. -/
def utf8EncodeChar (c : Char) : List Nat :=
  let n := c.toNat
  if n < 128 then [n]
  else if n < 2048 then [192 + n / 64, 128 + n % 64]
  else if n < 65536 then [224 + n / 4096, 128 + (n / 64) % 64, 128 + n % 64]
  else [240 + n / 262144, 128 + (n / 4096) % 64, 128 + (n / 64) % 64, 128 + n % 64]

/-- Decode one UTF-8 sequence from the front of a byte list. -/
def utf8DecodeStep : List Nat → Option (Char × List Nat)
  | [] => none
  | b :: rest =>
    if b < 128 then some (Char.ofNat b, rest)
    else if b < 192 then none
    else if b < 224 then
      match rest with
      | b1 :: rest1 =>
        if 128 ≤ b1 ∧ b1 < 192 then
          let n := (b - 192) * 64 + (b1 - 128)
          if n < 128 then none else some (Char.ofNat n, rest1)
        else none
      | [] => none
    else if b < 240 then
      match rest with
      | b1 :: b2 :: rest2 =>
        if 128 ≤ b1 ∧ b1 < 192 ∧ 128 ≤ b2 ∧ b2 < 192 then
          let n := (b - 224) * 4096 + (b1 - 128) * 64 + (b2 - 128)
          if n < 2048 then none
          else if 55296 ≤ n ∧ n < 57344 then none
          else some (Char.ofNat n, rest2)
        else none
      | _ => none
    else if b < 248 then
      match rest with
      | b1 :: b2 :: b3 :: rest3 =>
        if 128 ≤ b1 ∧ b1 < 192 ∧ 128 ≤ b2 ∧ b2 < 192 ∧ 128 ≤ b3 ∧ b3 < 192 then
          let n := (b - 240) * 262144 + (b1 - 128) * 4096 + (b2 - 128) * 64 + (b3 - 128)
          if n < 65536 then none
          else if 1114112 ≤ n then none
          else some (Char.ofNat n, rest3)
        else none
      | _ => none
    else none

/-- UTF-8 encoding of a scalar-value list. -/
def utf8EncodeChars : List Char → List Nat
  | [] => []
  | c :: cs => utf8EncodeChar c ++ utf8EncodeChars cs

/-- Fuelled full decode (each step consumes at least one byte, so the byte
count is enough fuel). -/
def utf8DecodeChars : Nat → List Nat → Option (List Char)
  | _, [] => some []
  | 0, _ :: _ => none
  | fuel + 1, b :: bs =>
    match utf8DecodeStep (b :: bs) with
    | none => none
    | some (c, rest) =>
      match utf8DecodeChars fuel rest with
      | none => none
      | some cs => some (c :: cs)

/-- Model of `String::as_bytes` (the UTF-8 bytes of a Rust string). -/
def utf8Encode (s : String) : List Nat := utf8EncodeChars s.data

/-- Model of `String::from_utf8(..)` as an `Option`. -/
def utf8Decode (bs : List Nat) : Option String :=
  (utf8DecodeChars bs.length bs).map String.mk

theorem char_toNat_valid (c : Char) :
    c.toNat < 55296 ∨ (57343 < c.toNat ∧ c.toNat < 1114112) := by
  rcases c.valid with h | ⟨h1, h2⟩
  · left
    exact_mod_cast h
  · right
    exact ⟨by exact_mod_cast h1, by exact_mod_cast h2⟩

theorem utf8DecodeStep_encodeChar (c : Char) (rest : List Nat) :
    utf8DecodeStep (utf8EncodeChar c ++ rest) = some (c, rest) := by
  have hval := char_toNat_valid c
  have hofnat : Char.ofNat c.toNat = c := Char.ofNat_toNat c
  by_cases h1 : c.toNat < 128
  · simp [utf8EncodeChar, utf8DecodeStep, h1, hofnat]
  · by_cases h2 : c.toNat < 2048
    · have hb : ¬(192 + c.toNat / 64 < 128) := by omega
      have hb2 : ¬(192 + c.toNat / 64 < 192) := by omega
      have hb3 : 192 + c.toNat / 64 < 224 := by omega
      have hc1 : 128 ≤ 128 + c.toNat % 64 ∧ 128 + c.toNat % 64 < 192 := by omega
      have hre : (192 + c.toNat / 64 - 192) * 64 + (128 + c.toNat % 64 - 128) = c.toNat := by
        omega
      simp only [utf8EncodeChar, h1, if_false, h2, if_true, List.cons_append,
        List.nil_append, utf8DecodeStep, hb, hb2, hb3, hc1, hre, if_pos, if_neg,
        and_true, and_self, ite_true, ite_false]
      rw [hofnat]
    · by_cases h3 : c.toNat < 65536
      · have hb : ¬(224 + c.toNat / 4096 < 128) := by omega
        have hb2 : ¬(224 + c.toNat / 4096 < 192) := by omega
        have hb3 : ¬(224 + c.toNat / 4096 < 224) := by omega
        have hb4 : 224 + c.toNat / 4096 < 240 := by omega
        have hc1 : 128 ≤ 128 + c.toNat / 64 % 64 ∧ 128 + c.toNat / 64 % 64 < 192 ∧
            128 ≤ 128 + c.toNat % 64 ∧ 128 + c.toNat % 64 < 192 := by omega
        have hre : (224 + c.toNat / 4096 - 224) * 4096
            + (128 + c.toNat / 64 % 64 - 128) * 64 + (128 + c.toNat % 64 - 128)
            = c.toNat := by omega
        have hlow : ¬(c.toNat < 2048) := h2
        have hsur : ¬(55296 ≤ c.toNat ∧ c.toNat < 57344) := by omega
        simp only [utf8EncodeChar, h1, h3, if_false, if_true, List.cons_append,
          List.nil_append, utf8DecodeStep, hb, hb2, hb3, hb4, hc1, hre, hlow, hsur,
          and_true, and_self, ite_true, ite_false]
        rw [hofnat]
      · have h4 : c.toNat < 1114112 := by omega
        have hb : ¬(240 + c.toNat / 262144 < 128) := by omega
        have hb2 : ¬(240 + c.toNat / 262144 < 192) := by omega
        have hb3 : ¬(240 + c.toNat / 262144 < 224) := by omega
        have hb4 : ¬(240 + c.toNat / 262144 < 240) := by omega
        have hb5 : 240 + c.toNat / 262144 < 248 := by omega
        have hc1 : 128 ≤ 128 + c.toNat / 4096 % 64 ∧ 128 + c.toNat / 4096 % 64 < 192 ∧
            128 ≤ 128 + c.toNat / 64 % 64 ∧ 128 + c.toNat / 64 % 64 < 192 ∧
            128 ≤ 128 + c.toNat % 64 ∧ 128 + c.toNat % 64 < 192 := by omega
        have hre : (240 + c.toNat / 262144 - 240) * 262144
            + (128 + c.toNat / 4096 % 64 - 128) * 4096
            + (128 + c.toNat / 64 % 64 - 128) * 64 + (128 + c.toNat % 64 - 128)
            = c.toNat := by omega
        have hlow : ¬(c.toNat < 65536) := h3
        have hhigh : ¬(1114112 ≤ c.toNat) := by omega
        simp only [utf8EncodeChar, h1, h2, h3, if_false, if_true, List.cons_append,
          List.nil_append, utf8DecodeStep, hb, hb2, hb3, hb4, hb5, hc1, hre, hlow,
          hhigh, and_true, and_self, ite_true, ite_false]
        rw [hofnat]

theorem utf8EncodeChar_ne_nil (c : Char) : utf8EncodeChar c ≠ [] := by
  unfold utf8EncodeChar
  by_cases h1 : c.toNat < 128 <;> by_cases h2 : c.toNat < 2048 <;>
    by_cases h3 : c.toNat < 65536 <;> simp [h1, h2, h3]

theorem utf8DecodeChars_encodeChars (cs : List Char) (fuel : Nat)
    (h : (utf8EncodeChars cs).length ≤ fuel) :
    utf8DecodeChars fuel (utf8EncodeChars cs) = some cs := by
  induction cs generalizing fuel with
  | nil => simp [utf8EncodeChars, utf8DecodeChars]
  | cons c cs ih =>
    rcases henc : utf8EncodeChar c with _ | ⟨b, tl⟩
    · exact absurd henc (utf8EncodeChar_ne_nil c)
    · have hlen : 1 ≤ (utf8EncodeChar c).length := by rw [henc]; simp
      have hlen2 : (utf8EncodeChars (c :: cs)).length
          = (utf8EncodeChar c).length + (utf8EncodeChars cs).length := by
        simp [utf8EncodeChars]
      rcases fuel with _ | f
      · omega
      · have hstep := utf8DecodeStep_encodeChar c (utf8EncodeChars cs)
        have harg : utf8EncodeChars (c :: cs) = b :: (tl ++ utf8EncodeChars cs) := by
          simp [utf8EncodeChars, henc]
        rw [harg]
        have hstep2 : utf8DecodeStep (b :: (tl ++ utf8EncodeChars cs))
            = some (c, utf8EncodeChars cs) := by
          rw [← List.cons_append, ← henc]; exact hstep
        simp only [utf8DecodeChars, hstep2]
        rw [ih f (by omega)]

theorem utf8Decode_encode (s : String) : utf8Decode (utf8Encode s) = some s := by
  unfold utf8Decode utf8Encode
  rw [utf8DecodeChars_encodeChars s.data _ le_rfl]
  cases s
  rfl

/-! ## Binary protocol (server-tcp/src/protocol/mod.rs)

The length-delimited framing is handled by `LengthDelimitedCodec`; a frame's
payload is what `Request::decode` / `Response::decode` operate on. -/

/-- Embeds `server_tcp::protocol::Request`. -/
inductive Request where
  | ping
  | put (cache_name : String) (key value : Bytes)
  | get (cache_name : String) (key : Bytes)
  | delete (cache_name : String) (key : Bytes)
deriving DecidableEq, Repr

/-- Embeds `server_tcp::protocol::Response`. -/
inductive Response where
  | pong
  | ok
  | value (value : Bytes)
  | notFound
  | error (msg : String)
deriving DecidableEq, Repr

/-- Embeds `put_u32(len as u32)`: the four big-endian bytes of the length
truncated modulo 2^32 (Rust `usize as u32`). -/
def u32be (n : Nat) : List Nat :=
  [n / 16777216 % 256, n / 65536 % 256, n / 256 % 256, n % 256]

/-- Embeds `get_u32()`: big-endian reassembly of four bytes. -/
def beU32 (b0 b1 b2 b3 : Nat) : Nat := ((b0 * 256 + b1) * 256 + b2) * 256 + b3

/-- Uppercase hex digit. -/
def hexDigit (n : Nat) : String :=
  ["0", "1", "2", "3", "4", "5", "6", "7", "8", "9",
   "A", "B", "C", "D", "E", "F"].getD n "0"

/-- Embeds the `"{:02X}"` byte formatting used for unknown opcodes. -/
def hexByte (b : Nat) : String := hexDigit (b / 16 % 16) ++ hexDigit (b % 16)

/-- Embeds `Request::encode` (protocol/mod.rs): opcode byte, then
`[cname_len][cname]` and the length-prefixed key/value payload, all lengths
written with `put_u32(.. as u32)`, hence modulo 2^32. -/
def Request.encode : Request → Bytes
  | .ping => [0]
  | .put cache_name key value =>
      1 :: (u32be (utf8Encode cache_name).length ++ (utf8Encode cache_name
        ++ (u32be key.length ++ (u32be value.length ++ (key ++ value)))))
  | .get cache_name key =>
      2 :: (u32be (utf8Encode cache_name).length ++ (utf8Encode cache_name
        ++ (u32be key.length ++ key)))
  | .delete cache_name key =>
      3 :: (u32be (utf8Encode cache_name).length ++ (utf8Encode cache_name
        ++ (u32be key.length ++ key)))

/-- Embeds the shared cache-name reading block of `Request::decode`
(read `cache_name_len`, bounds-check, take the bytes, `String::from_utf8`);
the `cmd` string only parametrizes the error messages, which differ per
command in the source.  The `from_utf8` error detail string is abbreviated. -/
def readCacheName (cmd : String) (buf : Bytes) : Except String (String × Bytes) :=
  match buf with
  | b0 :: b1 :: b2 :: b3 :: rest =>
      let cache_name_len := beU32 b0 b1 b2 b3
      if rest.length < cache_name_len then
        .error ("Invalid " ++ cmd ++ ": cache_name too short")
      else
        match utf8Decode (rest.take cache_name_len) with
        | some cache_name => .ok (cache_name, rest.drop cache_name_len)
        | none => .error "Invalid cache_name UTF-8: invalid utf-8 sequence"
  | _ => .error ("Invalid " ++ cmd ++ ": missing cache_name length")

/-- Embeds `Request::decode` (protocol/mod.rs). -/
def Request.decode (buf : Bytes) : Except String Request :=
  match buf with
  | [] => .error "Empty buffer"
  | cmd :: buf1 =>
    if cmd = 0 then .ok .ping
    else if cmd = 1 then
      match readCacheName "PUT" buf1 with
      | .error e => .error e
      | .ok (cache_name, buf2) =>
        match buf2 with
        | k0 :: k1 :: k2 :: k3 :: v0 :: v1 :: v2 :: v3 :: buf3 =>
            let key_len := beU32 k0 k1 k2 k3
            let value_len := beU32 v0 v1 v2 v3
            if buf3.length < key_len + value_len then
              .error ("Invalid PUT: expected " ++ toString (key_len + value_len)
                ++ " bytes, got " ++ toString buf3.length)
            else
              .ok (.put cache_name (buf3.take key_len)
                    ((buf3.drop key_len).take value_len))
        | _ => .error "Invalid PUT: missing key/value length fields"
    else if cmd = 2 then
      match readCacheName "GET" buf1 with
      | .error e => .error e
      | .ok (cache_name, buf2) =>
        match buf2 with
        | k0 :: k1 :: k2 :: k3 :: buf3 =>
            let key_len := beU32 k0 k1 k2 k3
            if buf3.length < key_len then
              .error ("Invalid GET: expected " ++ toString key_len
                ++ " bytes, got " ++ toString buf3.length)
            else
              .ok (.get cache_name (buf3.take key_len))
        | _ => .error "Invalid GET: missing key length"
    else if cmd = 3 then
      match readCacheName "DELETE" buf1 with
      | .error e => .error e
      | .ok (cache_name, buf2) =>
        match buf2 with
        | k0 :: k1 :: k2 :: k3 :: buf3 =>
            let key_len := beU32 k0 k1 k2 k3
            if buf3.length < key_len then
              .error ("Invalid DELETE: expected " ++ toString key_len
                ++ " bytes, got " ++ toString buf3.length)
            else
              .ok (.delete cache_name (buf3.take key_len))
        | _ => .error "Invalid DELETE: missing key length"
    else .error ("Unknown command: 0x" ++ hexByte cmd)

/-- Model of `String::from_utf8_lossy(..).to_string()`: the identity on valid
UTF-8; on invalid input the replacement is approximated by a single U+FFFD
(the claims never reach that branch, since `Response::encode` always emits
valid UTF-8). -/
def utf8Lossy (bs : Bytes) : String :=
  match utf8Decode bs with
  | some s => s
  | none => "�"

/-- Embeds `Response::encode` (protocol/mod.rs). -/
def Response.encode : Response → Bytes
  | .pong => [0]
  | .ok => [1]
  | .value v => 2 :: (u32be v.length ++ v)
  | .notFound => [3]
  | .error msg => 4 :: (u32be (utf8Encode msg).length ++ utf8Encode msg)

/-- Embeds `Response::decode` (protocol/mod.rs). -/
def Response.decode (buf : Bytes) : Except String Response :=
  match buf with
  | [] => .error "Empty buffer"
  | t :: buf1 =>
    if t = 0 then .ok .pong
    else if t = 1 then .ok .ok
    else if t = 2 then
      match buf1 with
      | b0 :: b1 :: b2 :: b3 :: rest =>
          let value_len := beU32 b0 b1 b2 b3
          if rest.length < value_len then
            .error ("Invalid VALUE: expected " ++ toString value_len
              ++ " bytes, got " ++ toString rest.length)
          else .ok (.value (rest.take value_len))
      | _ => .error "Invalid VALUE: missing length"
    else if t = 3 then .ok .notFound
    else if t = 4 then
      match buf1 with
      | b0 :: b1 :: b2 :: b3 :: rest =>
          let msg_len := beU32 b0 b1 b2 b3
          if rest.length < msg_len then
            .error ("Invalid ERROR: expected " ++ toString msg_len
              ++ " bytes, got " ++ toString rest.length)
          else .ok (.error (utf8Lossy (rest.take msg_len)))
      | _ => .error "Invalid ERROR: missing length"
    else .error ("Unknown response type: 0x" ++ hexByte t)

theorem beU32_u32be (n : Nat) (h : n < 4294967296) :
    beU32 (n / 16777216 % 256) (n / 65536 % 256) (n / 256 % 256) (n % 256) = n := by
  unfold beU32; omega

theorem readCacheName_encoded (cmd s : String) (tail : Bytes)
    (h : (utf8Encode s).length < 4294967296) :
    readCacheName cmd (u32be (utf8Encode s).length ++ (utf8Encode s ++ tail))
      = .ok (s, tail) := by
  have hbe := beU32_u32be (utf8Encode s).length h
  simp only [u32be, List.cons_append, List.nil_append, readCacheName, hbe]
  rw [if_neg (by simp [List.length_append]), List.take_left' rfl,
    List.drop_left' rfl, utf8Decode_encode]

/-- Frame-size safety: every length field written by `encode` fits in the
`u32` the wire format stores (Rust truncates `len() as u32` otherwise). -/
def Request.wireSafe : Request → Prop
  | .ping => True
  | .put n k v => (utf8Encode n).length < 4294967296 ∧ k.length < 4294967296
      ∧ v.length < 4294967296
  | .get n k => (utf8Encode n).length < 4294967296 ∧ k.length < 4294967296
  | .delete n k => (utf8Encode n).length < 4294967296 ∧ k.length < 4294967296

/-- Frame-size safety for responses. -/
def Response.wireSafe : Response → Prop
  | .value v => v.length < 4294967296
  | .error m => (utf8Encode m).length < 4294967296
  | _ => True

/-- C7 (amended): for every request and response whose length fields fit in a
`u32` (cache-name UTF-8 bytes, key, value, message UTF-8 bytes each shorter
than 2^32), decoding the encoding succeeds and returns the original value. -/
theorem protocol_roundtrip :
    (∀ q : Request, q.wireSafe → Request.decode (Request.encode q) = .ok q)
    ∧ (∀ r : Response, r.wireSafe → Response.decode (Response.encode r) = .ok r) := by
  constructor
  · intro q hq
    cases q with
    | ping => rfl
    | put n k v =>
      rcases hq with ⟨hn, hk, hv⟩
      simp only [Request.encode, Request.decode]
      rw [readCacheName_encoded "PUT" n _ hn]
      simp only [u32be, List.cons_append, List.nil_append, beU32_u32be k.length hk,
        beU32_u32be v.length hv]
      rw [if_neg (by simp [List.length_append]), List.take_left' rfl,
        List.drop_left' rfl, List.take_length]
      simp
    | get n k =>
      rcases hq with ⟨hn, hk⟩
      simp only [Request.encode, Request.decode]
      rw [readCacheName_encoded "GET" n _ hn]
      simp only [u32be, List.cons_append, List.nil_append, beU32_u32be k.length hk]
      rw [if_neg (by simp), List.take_length]
      simp
    | delete n k =>
      rcases hq with ⟨hn, hk⟩
      simp only [Request.encode, Request.decode]
      rw [readCacheName_encoded "DELETE" n _ hn]
      simp only [u32be, List.cons_append, List.nil_append, beU32_u32be k.length hk]
      rw [if_neg (by simp), List.take_length]
      simp
  · intro r hr
    cases r with
    | pong => rfl
    | ok => rfl
    | value v =>
      simp only [Response.encode, Response.decode, u32be, List.cons_append,
        List.nil_append, beU32_u32be v.length hr]
      rw [if_neg (by simp), List.take_length]
      simp
    | notFound => rfl
    | error m =>
      simp only [Response.encode, Response.decode, u32be, List.cons_append,
        List.nil_append, beU32_u32be (utf8Encode m).length hr]
      rw [if_neg (by simp), List.take_length]
      simp [utf8Lossy, utf8Decode_encode]

/-- Witness for the amended C7 at concrete values (a PUT request with a
non-ASCII cache name, and an ERROR response). -/
theorem protocol_roundtrip_witness :
    Request.decode (Request.encode (.put "café" [1, 2] [3]))
      = .ok (.put "café" [1, 2] [3])
    ∧ Response.decode (Response.encode (.error "Get failed: not found"))
      = .ok (.error "Get failed: not found") :=
  ⟨protocol_roundtrip.1 (.put "café" [1, 2] [3]) ⟨by decide, by decide, by decide⟩,
   protocol_roundtrip.2 (.error "Get failed: not found")
     (show (utf8Encode "Get failed: not found").length < 4294967296 by decide)⟩

theorem encode_get_oversize (R : Bytes) (hlen : R.length = 4294967296) :
    Request.encode (.get "" R) = 2 :: 0 :: 0 :: 0 :: 0 :: 0 :: 0 :: 0 :: 0 :: R := by
  simp [Request.encode, u32be, hlen, show utf8Encode "" = [] from rfl]

theorem decode_get_oversize (R : Bytes) :
    Request.decode (2 :: 0 :: 0 :: 0 :: 0 :: 0 :: 0 :: 0 :: 0 :: R) = .ok (.get "" []) := by
  simp [Request.decode, readCacheName, beU32,
    show utf8Decode [] = some "" from rfl, Nat.not_lt_zero]

/-- C7 counterexample: the round-trip claim fails as stated, at a GET request
whose key has exactly 2^32 bytes: `encode` writes `key.len() as u32 = 0`, so
`decode` returns a GET with an empty key instead of the original request. -/
theorem protocol_roundtrip_counterexample :
    Request.decode (Request.encode (.get "" (List.replicate 4294967296 0)))
      = .ok (.get "" [])
    ∧ Request.decode (Request.encode (.get "" (List.replicate 4294967296 0)))
      ≠ .ok (.get "" (List.replicate 4294967296 0)) := by
  have hlen : (List.replicate 4294967296 (0 : Nat)).length = 4294967296 :=
    List.length_replicate 4294967296 0
  have hdec : Request.decode (Request.encode (.get "" (List.replicate 4294967296 0)))
      = .ok (.get "" []) := by
    rw [encode_get_oversize _ hlen]
    exact decode_get_oversize _
  refine ⟨hdec, ?_⟩
  rw [hdec]
  intro hcon
  have h2 : ([] : Bytes) = List.replicate 4294967296 0 := by
    have h1 : Request.get "" [] = .get "" (List.replicate 4294967296 0) := by
      injection hcon
    injection h1
  have h3 := congrArg List.length h2
  rw [hlen] at h3
  simp at h3

/-! ## TCP server (server-tcp/src/server.rs) -/

/-- Embeds one iteration of `process_connection`'s request loop: dispatch the
decoded request to the data plane and build the wire response.  Errors are
formatted with the `Display` impl of `shared::Error` (`Err.display`); the
server passes no per-entry TTL. -/
def processRequest (st : OpsState) (now : Nat) : Request → OpsState × Response
  | .ping => (st, .pong)
  | .put cache_name key value =>
      let r := opsPut st now cache_name key value none
      match r.2 with
      | .ok _ => (r.1, .ok)
      | .error (.cacheNotFound name) => (r.1, .error ("Cache not found: " ++ name))
      | .error e => (r.1, .error ("Put failed: " ++ e.display))
  | .get cache_name key =>
      (match opsGet st cache_name key with
       | .ok gr => if gr.found then (st, .value gr.message) else (st, .notFound)
       | .error (.cacheNotFound name) => (st, .error ("Cache not found: " ++ name))
       | .error e => (st, .error ("Get failed: " ++ e.display)))
  | .delete cache_name key =>
      let r := opsDelete st now cache_name key
      match r.2 with
      | .ok _ => (r.1, .ok)
      | .error (.cacheNotFound name) => (r.1, .error ("Cache not found: " ++ name))
      | .error e => (r.1, .error ("Delete failed: " ++ e.display))

/-- C2 (code divergence): a TCP GET naming an existing cache whose key is
absent does NOT produce the `NOT_FOUND` response: the store reports a miss as
`Err(Error::NotFound)`, which falls into the generic error arm of
`process_connection`, so the wire response is `ERROR("Get failed: not found")`.
The `Ok(_) => Response::NotFound` arm is unreachable, because `get` never
returns `Ok` with `found = false`. -/
theorem tcp_get_miss_returns_error :
    processRequest ⟨⟨[("c", ⟨cfgA, []⟩)], none⟩, false, []⟩ 0 (.get "c" [107])
      = (⟨⟨[("c", ⟨cfgA, []⟩)], none⟩, false, []⟩, .error "Get failed: not found")
    ∧ (processRequest ⟨⟨[("c", ⟨cfgA, []⟩)], none⟩, false, []⟩ 0 (.get "c" [107])).2
      ≠ .notFound := by
  constructor
  · rfl
  · intro h
    rw [show (processRequest ⟨⟨[("c", ⟨cfgA, []⟩)], none⟩, false, []⟩ 0 (.get "c" [107])).2
        = .error "Get failed: not found" from rfl] at h
    cases h

/-! ## HTTP validation (server-http/src/validation.rs, handlers/admin_ops.rs) -/

/-- Embeds `server_http::models::CreateCacheRequest`. -/
structure CreateCacheRequest where
  name : String
  eviction : String
  mem_bytes : Option Nat
  disk_path : Option String
  shards : Option Nat
  policy : String
  default_ttl_ms : Option Nat
  max_value_bytes : Option Nat
  description : Option String
  tags : Option (List (String × String))
deriving DecidableEq, Repr

/-- Embeds `server_http::validation::ValidationError`. -/
inductive ValidationError where
  | missingRequiredField (field : String) (backend : String)
  | invalidCacheName (reason : String)
  | invalidBackendType (backend : String)
  | invalidPolicy (policy : String)
  | outOfRange (field : String) (value : Nat) (min : Nat) (max : Nat)
deriving DecidableEq, Repr

/-- Embeds `ValidationError`'s `Display` impl. -/
def ValidationError.display : ValidationError → String
  | .missingRequiredField f b =>
      "Missing required field '" ++ f ++ "' for " ++ b ++ " cache"
  | .invalidCacheName r => "Invalid cache name: " ++ r
  | .invalidBackendType b =>
      "Invalid backend type '" ++ b ++ "'. Must be 'ttl', 'size', or 'storage'"
  | .invalidPolicy p =>
      "Invalid eviction policy '" ++ p ++ "'. Must be 'lru', 'sieve', or 'tinylfu'"
  | .outOfRange f v mn mx =>
      "Field '" ++ f ++ "' value " ++ toString v ++ " is out of range (min: "
        ++ toString mn ++ ", max: " ++ toString mx ++ ")"

/-- Embeds the derived `Debug` format of `ValidationError` (used for the
`details` field of the error body). -/
def ValidationError.debugStr : ValidationError → String
  | .missingRequiredField f b =>
      "MissingRequiredField \x7b field: \"" ++ f ++ "\", backend: \"" ++ b ++ "\" \x7d"
  | .invalidCacheName r => "InvalidCacheName \x7b reason: \"" ++ r ++ "\" \x7d"
  | .invalidBackendType b => "InvalidBackendType(\"" ++ b ++ "\")"
  | .invalidPolicy p => "InvalidPolicy(\"" ++ p ++ "\")"
  | .outOfRange f v mn mx =>
      "OutOfRange \x7b field: \"" ++ f ++ "\", value: " ++ toString v
        ++ ", min: " ++ toString mn ++ ", max: " ++ toString mx ++ " \x7d"

/-- Model of Rust `str::to_lowercase` restricted to ASCII (all backend/policy
keywords compared against are ASCII). -/
def rustToLowercase (s : String) : String := String.mk (s.data.map Char.toLower)

/-- Embeds `CacheConfigFactory::parse_backend`. -/
def parseBackend (eviction : String) : Except ValidationError CacheEvictionStrategy :=
  let e := rustToLowercase eviction
  if e = "ttl" then .ok .timeBound
  else if e = "size" then .ok .sizeBounded
  else if e = "storage" then .ok .overflowToDisk
  else .error (.invalidBackendType eviction)

/-- Embeds `CacheConfigFactory::parse_policy` (empty policy defaults to
TinyLFU). -/
def parsePolicy (policy : String) : Except ValidationError EvictionAlgorithm :=
  if policy.data.isEmpty then .ok .tinyLfu
  else
    let p := rustToLowercase policy
    if p = "lru" then .ok .lru
    else if p = "sieve" then .ok .sieve
    else if p = "tinylfu" then .ok .tinyLfu
    else .error (.invalidPolicy policy)

/-- Embeds `CacheConfigFactory::validate_for_backend`. -/
def validateForBackend (req : CreateCacheRequest) :
    CacheEvictionStrategy → Except ValidationError Unit
  | .timeBound =>
      match req.mem_bytes with
      | some mb =>
          if mb < 1048576 ∨ mb > 1099511627776 then
            .error (.outOfRange "mem_bytes" mb 1048576 1099511627776)
          else .ok ()
      | none => .ok ()
  | .sizeBounded =>
      match req.mem_bytes with
      | none => .error (.missingRequiredField "mem_bytes" "SizeBounded")
      | some mb =>
          if mb < 1048576 ∨ mb > 1099511627776 then
            .error (.outOfRange "mem_bytes" mb 1048576 1099511627776)
          else .ok ()
  | .overflowToDisk =>
      match req.mem_bytes with
      | none => .error (.missingRequiredField "mem_bytes" "OverflowToDisk")
      | some mb =>
          if (match req.disk_path with | none => true | some s => s.data.isEmpty) then
            .error (.missingRequiredField "disk_path" "OverflowToDisk")
          else if mb < 1048576 ∨ mb > 1099511627776 then
            .error (.outOfRange "mem_bytes" mb 1048576 1099511627776)
          else .ok ()

/-- Model of Rust `char::is_alphanumeric` (Unicode `Alphabetic` or decimal
digit): exact on ASCII; for non-ASCII it is modelled on the Latin-1 letters
(U+00C0..U+00D6, U+00D8..U+00F6, U+00F8..U+00FF), which cover every character
the claims evaluate; other code points are treated as non-alphanumeric. -/
def rustIsAlphanumeric (c : Char) : Bool :=
  c.isAlphanum
  || (192 ≤ c.toNat && c.toNat ≤ 214)
  || (216 ≤ c.toNat && c.toNat ≤ 246)
  || (248 ≤ c.toNat && c.toNat ≤ 255)

/-- Embeds `CacheConfigFactory::validate_common_fields`: empty-name check,
then `chars().all(|c| c.is_alphanumeric() || c == '-' || c == '_')`, then the
shards range check. -/
def validateCommonFields (req : CreateCacheRequest) : Except ValidationError Unit :=
  if req.name.data.isEmpty then
    .error (.invalidCacheName "cache name cannot be empty")
  else if !(req.name.data.all (fun c => rustIsAlphanumeric c || c = '-' || c = '_')) then
    .error (.invalidCacheName
      "cache name must contain only alphanumeric characters, hyphens, or underscores")
  else
    match req.shards with
    | some shards =>
        if shards > 256 then .error (.outOfRange "shards" shards 1 256)
        else .ok ()
    | none => .ok ()

/-- Embeds `CacheConfigFactory::build_config`. -/
def buildConfig (req : CreateCacheRequest) (backend : CacheEvictionStrategy)
    (policy : EvictionAlgorithm) : CacheConfig :=
  let default_ttl_ms :=
    match backend with
    | .timeBound => some (req.default_ttl_ms.getD 1800000)
    | _ => req.default_ttl_ms
  { name := req.name, backend := backend, policy := policy,
    mem_bytes := req.mem_bytes, disk_path := req.disk_path,
    shards := some (req.shards.getD 16),
    default_ttl_ms := default_ttl_ms, max_value_bytes := req.max_value_bytes,
    description := req.description, tags := req.tags }

/-- Embeds `CacheConfigFactory::from_request` (the validation order of the
source: backend, policy, backend-specific fields, common fields, build). -/
def fromRequest (req : CreateCacheRequest) : Except ValidationError CacheConfig :=
  match parseBackend req.eviction with
  | .error e => .error e
  | .ok backend =>
    match parsePolicy req.policy with
    | .error e => .error e
    | .ok policy =>
      match validateForBackend req backend with
      | .error e => .error e
      | .ok _ =>
        match validateCommonFields req with
        | .error e => .error e
        | .ok _ => .ok (buildConfig req backend policy)

/-- Embeds `server_http::models::ValidationErrorResponse`. -/
structure ValidationErrorResponse where
  error : String
  field : Option String
  details : Option String
deriving DecidableEq, Repr

/-- Embeds the validation stage of the `create_cache` handler
(handlers/admin_ops.rs): a factory error becomes HTTP 400 with body
`ValidationErrorResponse { error: err.to_string(), field: None,
details: Some(format!("{:?}", err)) }`; a validated config continues to
`CacheManager::create_cache`. -/
def createCacheValidate (req : CreateCacheRequest) :
    Except (Nat × ValidationErrorResponse) CacheConfig :=
  match fromRequest req with
  | .ok config => .ok config
  | .error err => .error (400, ⟨err.display, none, some err.debugStr⟩)

/-- C8 counterexample: (1) the name "café" contains 'é', a character outside
`[A-Za-z0-9_-]`, yet validation ACCEPTS it (Rust `is_alphanumeric` is
Unicode-aware); (2) a genuinely rejected name ("bad name!") does get HTTP 400,
but the error body carries `field = None`, not `field = "name"`. -/
theorem name_validation_counterexample :
    createCacheValidate ⟨"café", "ttl", none, none, none, "", none, none, none, none⟩
      = .ok ⟨"café", .timeBound, .tinyLfu, none, none, some 16, some 1800000,
             none, none, none⟩
    ∧ createCacheValidate ⟨"bad name!", "ttl", none, none, none, "", none, none, none, none⟩
      = .error (400,
          ⟨"Invalid cache name: cache name must contain only alphanumeric characters, hyphens, or underscores",
           none,
           some "InvalidCacheName \x7b reason: \"cache name must contain only alphanumeric characters, hyphens, or underscores\" \x7d"⟩) := by
  constructor <;> rfl

/-- C8 (amended): for every create-cache request that passes the backend,
policy and backend-field validations and whose name is non-empty but contains
a character that is neither alphanumeric (in the Unicode sense of Rust
`char::is_alphanumeric`) nor '-' nor '_', validation rejects the request with
HTTP status 400, and the error body has `field = None` with an error message
identifying the invalid cache name. -/
theorem name_validation_rejects (req : CreateCacheRequest)
    (backend : CacheEvictionStrategy) (policy : EvictionAlgorithm)
    (h1 : parseBackend req.eviction = .ok backend)
    (h2 : parsePolicy req.policy = .ok policy)
    (h3 : validateForBackend req backend = .ok ())
    (hne : req.name.data.isEmpty = false)
    (hbad : req.name.data.all (fun c => rustIsAlphanumeric c || c = '-' || c = '_') = false) :
    createCacheValidate req
      = .error (400,
          ⟨"Invalid cache name: cache name must contain only alphanumeric characters, hyphens, or underscores",
           none,
           some "InvalidCacheName \x7b reason: \"cache name must contain only alphanumeric characters, hyphens, or underscores\" \x7d"⟩) := by
  simp [createCacheValidate, fromRequest, h1, h2, h3, validateCommonFields, hne, hbad,
    ValidationError.display, ValidationError.debugStr]

/-- Witness for the amended C8 at the concrete rejected request. -/
theorem name_validation_rejects_witness :
    createCacheValidate ⟨"bad name!", "ttl", none, none, none, "", none, none, none, none⟩
      = .error (400,
          ⟨"Invalid cache name: cache name must contain only alphanumeric characters, hyphens, or underscores",
           none,
           some "InvalidCacheName \x7b reason: \"cache name must contain only alphanumeric characters, hyphens, or underscores\" \x7d"⟩) :=
  name_validation_rejects
    ⟨"bad name!", "ttl", none, none, none, "", none, none, none, none⟩
    .timeBound .tinyLfu rfl rfl rfl rfl (by decide)

/-! ## Sessions and the authentication fast path
(carbon/src/auth/session.rs, moka_session_repository.rs,
server-http/src/middleware/authentication.rs)

Wall-clock time is threaded as `now`; the random 32-byte token of
`generate_session_token` is a parameter; the human-readable `*_utc` mirror
fields of `Session` (pure display duplicates of the timestamps) are omitted. -/

/-- Embeds `carbon::auth::models::User` (the fields the auth path reads). -/
structure User where
  username : String
  password_hash : String
deriving DecidableEq, Repr

/-- Embeds `carbon::auth::session::Session`. -/
structure Session where
  token : String
  user : User
  created_at : Nat
  expires_at : Nat
  last_accessed : Nat
  client_ip : Option String
deriving DecidableEq, Repr

/-- Embeds `Session::is_expired`: `now >= expires_at`. -/
def Session.isExpired (s : Session) (now : Nat) : Bool := s.expires_at ≤ now

/-- Embeds `MokaSessionRepository`: primary index token → session, secondary
index username → token list. -/
structure SessionRepoState where
  sessions : List (String × Session)
  user_sessions : List (String × List String)
deriving DecidableEq, Repr

/-- The loop body of `get_existing_user_session`: keep the not-expired session
with the strictly greatest `last_accessed` seen so far. -/
def selectRecent (sessions : List (String × Session)) (now : Nat)
    (most_recent : Option Session) (token : String) : Option Session :=
  match mapLookup sessions token with
  | none => most_recent
  | some session =>
      if session.isExpired now then most_recent
      else
        match most_recent with
        | none => some session
        | some m =>
            if m.last_accessed < session.last_accessed then some session
            else most_recent

/-- Embeds `MokaSessionRepository::get_existing_user_session`: fetch the
username's token list from the secondary index and select the most recently
accessed unexpired session; never creates. -/
def getExistingUserSession (st : SessionRepoState) (now : Nat)
    (username : String) : Option Session :=
  match mapLookup st.user_sessions username with
  | none => none
  | some token_list => token_list.foldl (selectRecent st.sessions now) none

/-- Embeds `MokaSessionRepository::update_session`. -/
def updateSession (st : SessionRepoState) (session : Session) : SessionRepoState :=
  { st with sessions := mapInsert st.sessions session.token session }

/-- Embeds `MokaSessionRepository::create_session` (the generated token and
creation instant are parameters of the model): insert into the primary index
and append to the username's token list. -/
def createSession (st : SessionRepoState) (session : Session) : SessionRepoState :=
  let tokens := (mapLookup st.user_sessions session.user.username).getD []
  { sessions := mapInsert st.sessions session.token session,
    user_sessions := mapInsert st.user_sessions session.user.username
      (tokens ++ [session.token]) }

/-- Result of the Basic-Auth branch of `auth_middleware`: whether the request
reached the inner handler with a user attached, the `X-Session-Token` and
`X-Session-Reused` response headers, whether `auth_service.authenticate`
(the Argon2 password verification) was invoked, and the session store after
the request. -/
structure BasicAuthResult where
  authorized : Bool
  user : Option User
  sessionToken : Option String
  sessionReused : Option String
  authenticateInvoked : Bool
  repo : SessionRepoState
deriving DecidableEq, Repr

/-- Embeds the Basic-Auth path of `auth_middleware`
(server-http/src/middleware/authentication.rs lines 79-149): first the
session fast path via `get_existing_user_session` (touch, attach user, set
`X-Session-Token` and `X-Session-Reused: true`, and return without
verifying the password); otherwise the slow path: `authenticate` (Argon2),
401 on failure, else create a session with TTL 3600000 and set
`X-Session-Reused: false`.  `authenticate` is the password verifier of
`AuthService`, a parameter of the model. -/
def authMiddlewareBasic (st : SessionRepoState) (now : Nat)
    (username password : String)
    (authenticate : String → String → Option User)
    (newToken : String) (clientIp : Option String) : BasicAuthResult :=
  match getExistingUserSession st now username with
  | some session =>
      { authorized := true, user := some session.user,
        sessionToken := some session.token, sessionReused := some "true",
        authenticateInvoked := false,
        repo := updateSession st { session with last_accessed := now } }
  | none =>
      match authenticate username password with
      | none =>
          { authorized := false, user := none, sessionToken := none,
            sessionReused := none, authenticateInvoked := true, repo := st }
      | some user =>
          let session : Session :=
            ⟨newToken, user, now, now + 3600000, now, clientIp⟩
          { authorized := true, user := some user,
            sessionToken := some newToken, sessionReused := some "false",
            authenticateInvoked := true, repo := createSession st session }

theorem selectRecent_some_preserved (sessions : List (String × Session))
    (now : Nat) (t : String) (s0 : Session) (h0 : s0.isExpired now = false) :
    ∃ s1, selectRecent sessions now (some s0) t = some s1
      ∧ s1.isExpired now = false := by
  rcases hl : mapLookup sessions t with _ | sess
  · exact ⟨s0, by simp [selectRecent, hl], h0⟩
  · by_cases hexp : sess.isExpired now
    · exact ⟨s0, by simp [selectRecent, hl, hexp], h0⟩
    · by_cases hcmp : s0.last_accessed < sess.last_accessed
      · exact ⟨sess, by simp [selectRecent, hl, hexp, hcmp], by simpa using hexp⟩
      · exact ⟨s0, by simp [selectRecent, hl, hexp, hcmp], h0⟩

theorem fold_selectRecent_some_preserved (sessions : List (String × Session))
    (now : Nat) (tl : List String) (s0 : Session)
    (h0 : s0.isExpired now = false) :
    ∃ s, tl.foldl (selectRecent sessions now) (some s0) = some s
      ∧ s.isExpired now = false := by
  induction tl generalizing s0 with
  | nil => exact ⟨s0, rfl, h0⟩
  | cons t rest ih =>
    rcases selectRecent_some_preserved sessions now t s0 h0 with ⟨s1, hs1, hs1e⟩
    simp only [List.foldl, hs1]
    exact ih s1 hs1e

theorem fold_selectRecent_finds_valid (sessions : List (String × Session))
    (now : Nat) (tl : List String)
    (h : ∃ t ∈ tl, ∃ s, mapLookup sessions t = some s ∧ s.isExpired now = false) :
    ∃ s, tl.foldl (selectRecent sessions now) none = some s
      ∧ s.isExpired now = false := by
  induction tl with
  | nil => rcases h with ⟨t, ht, _⟩; cases ht
  | cons t0 rest ih =>
    rcases h with ⟨t, ht, s, hs, hsexp⟩
    rcases List.mem_cons.mp ht with rfl | htrest
    · rcases hsel : selectRecent sessions now none t with _ | s1
      · simp [selectRecent, hs, hsexp] at hsel
      · have hs1e : s1.isExpired now = false := by
          simp [selectRecent, hs, hsexp] at hsel
          rw [← hsel]
          exact hsexp
        simp only [List.foldl, hsel]
        exact fold_selectRecent_some_preserved sessions now rest s1 hs1e
    · rcases hsel : selectRecent sessions now none t0 with _ | s1
      · simpa only [List.foldl, hsel] using ih ⟨t, htrest, s, hs, hsexp⟩
      · have hs1e : s1.isExpired now = false := by
          rcases hl : mapLookup sessions t0 with _ | sess
          · simp [selectRecent, hl] at hsel
          · by_cases hexp : sess.isExpired now
            · simp [selectRecent, hl, hexp] at hsel
            · simp [selectRecent, hl, hexp] at hsel
              rw [← hsel]
              simpa using hexp
        simp only [List.foldl, hsel]
        exact fold_selectRecent_some_preserved sessions now rest s1 hs1e

/-- C9: a Basic-Auth request whose username has at least one unexpired session
reachable through the session store's username index is authenticated from
that session without invoking password verification: for any supplied
password and any behaviour of the Argon2 verifier, the request succeeds and
the response carries the selected session's token in `X-Session-Token`
with `X-Session-Reused: true`. -/
theorem basic_auth_session_fast_path (st : SessionRepoState) (now : Nat)
    (username password : String)
    (authenticate : String → String → Option User)
    (newToken : String) (clientIp : Option String) (tl : List String)
    (hidx : mapLookup st.user_sessions username = some tl)
    (hvalid : ∃ t ∈ tl, ∃ s, mapLookup st.sessions t = some s
        ∧ s.isExpired now = false) :
    ∃ s, getExistingUserSession st now username = some s
      ∧ s.isExpired now = false
      ∧ authMiddlewareBasic st now username password authenticate newToken clientIp
        = { authorized := true, user := some s.user,
            sessionToken := some s.token, sessionReused := some "true",
            authenticateInvoked := false,
            repo := updateSession st { s with last_accessed := now } } := by
  rcases fold_selectRecent_finds_valid st.sessions now tl hvalid with ⟨s, hfold, hse⟩
  have hget : getExistingUserSession st now username = some s := by
    unfold getExistingUserSession
    rw [hidx]
    exact hfold
  exact ⟨s, hget, hse, by unfold authMiddlewareBasic; rw [hget]⟩

/-- Witness for C9: a concrete store with one unexpired session for "alice"
and an always-failing password verifier — the request still succeeds, reusing
the stored session's token, without invoking the verifier. -/
theorem basic_auth_session_fast_path_witness :
    ∃ s, getExistingUserSession
        ⟨[("tok1", ⟨"tok1", ⟨"alice", "h"⟩, 0, 100, 0, none⟩)], [("alice", ["tok1"])]⟩
        5 "alice" = some s
      ∧ s.isExpired 5 = false
      ∧ authMiddlewareBasic
          ⟨[("tok1", ⟨"tok1", ⟨"alice", "h"⟩, 0, 100, 0, none⟩)], [("alice", ["tok1"])]⟩
          5 "alice" "totally-wrong-password" (fun _ _ => none) "fresh" none
        = { authorized := true, user := some ⟨"alice", "h"⟩,
            sessionToken := some "tok1", sessionReused := some "true",
            authenticateInvoked := false,
            repo := updateSession
              ⟨[("tok1", ⟨"tok1", ⟨"alice", "h"⟩, 0, 100, 0, none⟩)], [("alice", ["tok1"])]⟩
              ⟨"tok1", ⟨"alice", "h"⟩, 0, 100, 5, none⟩ } := by
  have h := basic_auth_session_fast_path
    ⟨[("tok1", ⟨"tok1", ⟨"alice", "h"⟩, 0, 100, 0, none⟩)], [("alice", ["tok1"])]⟩
    5 "alice" "totally-wrong-password" (fun _ _ => none) "fresh" none ["tok1"]
    (by simp [mapLookup])
    ⟨"tok1", by simp, ⟨"tok1", ⟨"alice", "h"⟩, 0, 100, 0, none⟩, by simp [mapLookup], rfl⟩
  rcases h with ⟨s, hget, hse, hmid⟩
  have hs : s = ⟨"tok1", ⟨"alice", "h"⟩, 0, 100, 0, none⟩ := by
    rw [show getExistingUserSession
        ⟨[("tok1", ⟨"tok1", ⟨"alice", "h"⟩, 0, 100, 0, none⟩)], [("alice", ["tok1"])]⟩
        5 "alice" = some ⟨"tok1", ⟨"alice", "h"⟩, 0, 100, 0, none⟩ from rfl] at hget
    injection hget with h1
    exact h1.symm
  exact ⟨s, hget, hse, by rw [hmid, hs]⟩

end Carbon
